import Mathlib

/-
Shallow embedding of the rate-limited parallel dispatcher of the
narrative-blueprint repository.

The embedded code:
  * src/models/model.py        — LanguageModel: sliding-window quota tracking
                                 (_enforce_rate_limits, _get_average_completion_tokens),
                                 semaphore, stop flag;
  * src/models/openai_client.py — OpenAIGPT: _call_with_backoff retry loop and
                                 run_parallel_prompt_tasks dispatcher;
  * src/narrative_blueprint/blueprint.py — message composition and dedup
                                 against already-collected uuids;
  * src/databases/mongo.py     — get_collected_uuids (treated as an oracle list).

Timestamps and durations are rationals (Python floats are modelled exactly);
token counts are naturals.  Randomness (jitter) is modelled by explicitly
supplied sequences, constrained by the bounds of the random.uniform calls
where a property needs them.  The asynchronous stop flag is modelled as a
function from loop index to Bool, consulted exactly where the Python code
consults stop_flag.
-/

namespace NarrativeBlueprint

/-! ## Constants from models/model.py and models/openai_client.py -/

/-- Class constant `AVERAGE_TOKEN_USAGE = 1000` of LanguageModel (model.py). -/
def AVERAGE_TOKEN_USAGE : Nat := 1000

/-- Class constant `MAX_CONCURRENT_REQUESTS = 10` of LanguageModel (model.py):
the capacity of `self.semaphore`. -/
def MAX_CONCURRENT_REQUESTS : Nat := 10

/-- Class constant `DEFAULT_JITTER = 0.15` of LanguageModel (model.py). -/
def DEFAULT_JITTER : ℚ := 3/20

/-- The literal `max_workers=30` of the ThreadPoolExecutor in
`run_parallel_prompt_tasks` (openai_client.py). -/
def THREAD_POOL_MAX_WORKERS : Nat := 30

/-! ## QuotaTracker: the sliding-window state of LanguageModel

`request_timestamps : List ℚ` and `token_usage_log : List (ℚ × ℕ × ℕ)`
(timestamp, prompt_tokens, completion_tokens), as in model.py lines 85-86. -/

/-- The pruning of `self.request_timestamps` in `_enforce_rate_limits`
(model.py lines 205-207): keep `t` with `now - t < 60.0`. -/
def pruneRequests (now : ℚ) (ts : List ℚ) : List ℚ :=
  ts.filter (fun t => decide (now - t < 60))

/-- The pruning of `self.token_usage_log` in `_enforce_rate_limits`
(model.py lines 208-210): keep `(t, p, c)` with `now - t < 60.0`. -/
def pruneUsage (now : ℚ) (log : List (ℚ × ℕ × ℕ)) : List (ℚ × ℕ × ℕ) :=
  log.filter (fun e => decide (now - e.1 < 60))

/-- `_get_average_completion_tokens` (model.py lines 170-181): the fixed
default before any usage data, otherwise `int(sum(completion)/len)`;
completion counts are naturals, so Python `int(...)` truncation is `Nat`
floor division. -/
def averageCompletionTokens (log : List (ℚ × ℕ × ℕ)) : Nat :=
  match log with
  | [] => AVERAGE_TOKEN_USAGE
  | _ => (log.map (fun e => e.2.2)).sum / log.length

/-- The wait-time computation of one iteration of `_enforce_rate_limits`
(model.py lines 200-236), applied to the shared lists as found on entry:
prune both windows, then `wait_time = 0`, raised to the request wait when
the pruned request count reaches the RPM limit, then raised to the token
wait when the aggregate token figure exceeds the TPM limit. -/
def rateLimitWaitTime (rpm tpm estimatedTokens : Nat) (now : ℚ)
    (reqTs : List ℚ) (usage : List (ℚ × ℕ × ℕ)) : ℚ :=
  let reqs := pruneRequests now reqTs
  let toks := pruneUsage now usage
  let w0 : ℚ := 0
  let w1 :=
    if rpm ≤ reqs.length then
      max w0 (match reqs with
              | [] => 1
              | t :: _ => 60 - (now - t))
    else w0
  let tokensUsed := (toks.map (fun e => (e.2.1 : ℚ) + e.2.2)).sum
  let aggTokens := tokensUsed + estimatedTokens + averageCompletionTokens toks
  if (tpm : ℚ) < aggTokens then
    max w1 (match toks with
            | [] => 1
            | e :: _ => 60 - (now - e.1))
  else w1

/-! ## Spec-side wait computation (for the refinement claim C1)

These definitions follow the spec's words, not the code: the required
request wait and required token wait are each defined outright (0 when the
corresponding limit is not at risk, the 60-second remainder measured from
the oldest event in the window otherwise, 1 second on an empty window), and
the enforced wait is the maximum of the two. -/

/-- Modelled from the spec: the oldest timestamp of a window (the minimum;
unused default 0 on an empty window, which the spec guards separately). -/
def specOldestTimestamp (l : List ℚ) : ℚ :=
  match l with
  | [] => 0
  | t :: ts => ts.foldl min t

/-- Modelled from the spec: `averageCompletionTokenBuffer` — the mean of
observed completion tokens, or the fixed default 1000 before any usage
data exists. -/
def specAverageBuffer (log : List (ℚ × ℕ × ℕ)) : Nat :=
  if log.isEmpty then AVERAGE_TOKEN_USAGE
  else (log.map (fun e => e.2.2)).sum / log.length

/-- Modelled from the spec: the required request wait — if the request count
in the trailing window is at least the RPM limit, `60 - (now - oldest)`
(1 second on an empty window), otherwise 0. -/
def specRequestWait (rpm : Nat) (now : ℚ) (window : List ℚ) : ℚ :=
  if rpm ≤ window.length then
    (if window.isEmpty then 1 else 60 - (now - specOldestTimestamp window))
  else 0

/-- Modelled from the spec: the required token wait — if
`sum(tokens in window) + estimatedTokens + buffer` exceeds the TPM limit,
`60 - (now - oldestTokenEventTimestamp)` (1 second on an empty window),
otherwise 0. -/
def specTokenWait (tpm estimatedTokens : Nat) (now : ℚ)
    (window : List (ℚ × ℕ × ℕ)) : ℚ :=
  let aggregate := (window.map (fun e => (e.2.1 : ℚ) + e.2.2)).sum
    + estimatedTokens + specAverageBuffer window
  if (tpm : ℚ) < aggregate then
    (if window.isEmpty then 1
     else 60 - (now - specOldestTimestamp (window.map (fun e => e.1))))
  else 0

/-- Modelled from the spec: `estimateWait` — prune both windows to the
trailing 60 seconds, then take the maximum of the two required waits. -/
def specEstimateWait (rpm tpm estimatedTokens : Nat) (now : ℚ)
    (reqTs : List ℚ) (usage : List (ℚ × ℕ × ℕ)) : ℚ :=
  max (specRequestWait rpm now (pruneRequests now reqTs))
      (specTokenWait tpm estimatedTokens now (pruneUsage now usage))

/-! ## The _enforce_rate_limits loop as an event trace (model.py lines 199-255)

Beyond the wait arithmetic, C6/C7 need the loop's observable behaviour: which
locks are held when, and which sleeps happen where.  `RLEvent.acq`/`RLEvent.rel`
mark entry/exit of the combined `with self.rate_limit_lock, self.token_lock`
block; a `sleep d b` event records a `stop_flag.wait(d)` call with `b = true`
iff the locks are held at that point.  Per the source: the proceed-jitter wait
(line 245) happens inside the with-block; the enforced RPM/TPM wait (line 255)
happens after the with-block exits.  `nows i` is the `time.time()` read at the
top of iteration `i`, `recTimes i` the fresh `time.time()` read before the
append on line 240-241, `u1 i` the `random.uniform(0, 0.05)` draw of line 244,
`u2 i` the `random.uniform(0.05, 0.25)` draw of line 249. -/

/-- Events of the `_enforce_rate_limits` loop. -/
inductive RLEvent where
  | acq
  | rel
  | sleep (d : ℚ) (underLock : Bool)
  | record (t : ℚ)
deriving DecidableEq

/-- The two shared windows of LanguageModel (model.py lines 85-86). -/
structure RLState where
  requestTimestamps : List ℚ
  tokenUsageLog : List (ℚ × ℕ × ℕ)
deriving DecidableEq

/-- The `while True` loop of `_enforce_rate_limits`, by fuel (fuel exhaustion
truncates the trace, which is sound for the safety properties proved below). -/
def enforceLoop (rpm tpm estimatedTokens : Nat) (nows recTimes u1 u2 : Nat → ℚ) :
    Nat → Nat → RLState → List RLEvent × RLState
  | 0, _, st => ([], st)
  | fuel + 1, i, st =>
      let now := nows i
      let reqs := pruneRequests now st.requestTimestamps
      let toks := pruneUsage now st.tokenUsageLog
      let w := rateLimitWaitTime rpm tpm estimatedTokens now
        st.requestTimestamps st.tokenUsageLog
      if w = 0 then
        ([.acq, .record (recTimes i), .sleep (DEFAULT_JITTER + u1 i) true, .rel],
         ⟨reqs ++ [recTimes i], toks⟩)
      else
        let rest := enforceLoop rpm tpm estimatedTokens nows recTimes u1 u2 fuel
          (i + 1) ⟨reqs, toks⟩
        ([.acq, .rel, .sleep (w + u2 i) false] ++ rest.1, rest.2)

/-- `_enforce_rate_limits` entered with windows `st`. -/
def enforceRateLimits (rpm tpm estimatedTokens : Nat)
    (nows recTimes u1 u2 : Nat → ℚ) (fuel : Nat) (st : RLState) :
    List RLEvent × RLState :=
  enforceLoop rpm tpm estimatedTokens nows recTimes u1 u2 fuel 0 st

/-! ## _call_with_backoff (openai_client.py lines 181-304) -/

/-- Outcome of the body of one try of `_call_with_backoff`: the remote call
and response handling either complete, raise `RateLimitError` (message
`err`), or raise some other exception (class name, message, formatted
traceback). -/
inductive AttemptOutcome where
  | success (result : String)
  | throttled (err : String)
  | otherError (ename emsg tb : String)
deriving DecidableEq

/-- Observable events of one `_call_with_backoff` run: the start of an
attempt (with the `retry_count` current at that attempt), a backoff sleep of
the recorded duration, a line written to the diagnostics log, and a result
handed to the Mongo sink by `_process_response`. -/
inductive CallEvent where
  | attempt (n : Nat)
  | backoffSleep (d : ℚ)
  | logWrite (line : String)
  | store (uuid result : String)
deriving DecidableEq

/-- Terminal state of one `_call_with_backoff` run: returned after storing,
returned from the generic-exception handler, ended by the NameError that
escapes from the exceeded-retries path (see `afterLoop`), or returned
because the stop flag ended the loop. -/
inductive CallOutcome where
  | stored
  | abandoned
  | raisedNameError
  | cancelled
deriving DecidableEq

/-- The log line of the generic-exception handler (openai_client.py
line 290). -/
def errorLine (uuid ename emsg tb : String) : String :=
  "[ERROR] prompt #" ++ uuid ++ " error: " ++ ename ++ " - " ++ emsg
    ++ "\nTraceback:\n" ++ tb

/-- The code after the retry loop of `_call_with_backoff` (lines 295-304).
When `retry_count > max_retries` the source tries to log
`f"[FAILED] prompt #{uuid} exceeded retries - {e_rate_limit}"`, but Python 3
unbinds an `except ... as` target when its except clause exits, so
`e_rate_limit` is no longer bound here and evaluating the f-string raises
NameError (UnboundLocalError) before `_log_write` is called: no log event is
produced and the call ends with the escaped exception.  Otherwise the loop
was left by the stop flag and the function returns None. -/
def afterLoop (uuid : String) (maxRetries rc : Nat)
    (lastErr : Option String) : List CallEvent × CallOutcome :=
  if maxRetries < rc then ([], .raisedNameError) else ([], .cancelled)

/-- The retry loop of `_call_with_backoff` (lines 221-293).  Every iteration
either returns or increments `retry_count`, so `retry_count` indexes the
iterations: `oracle n` is the outcome of the try-body on the iteration with
`retry_count = n`, `stop n` the value `stop_flag.is_set()` reads at the top
of that iteration, and `jitter n` the `random.uniform(0, DEFAULT_JITTER)`
draw for the backoff sleep that raises `retry_count` to `n`.  `lastErr`
records the value the source's `e_rate_limit` variable held inside the most
recent except clause; the binding is cleared when that clause exits, so the
after-loop code can never read it (see `afterLoop`).  Fuel only pads the
recursion: the loop guard exits first whenever
`fuel + retry_count ≥ max_retries + 2`. -/
def callLoop (uuid : String) (oracle : Nat → AttemptOutcome)
    (stop : Nat → Bool) (jitter : Nat → ℚ) (maxRetries : Nat) :
    Nat → Nat → Option String → List CallEvent × CallOutcome
  | 0, rc, lastErr => afterLoop uuid maxRetries rc lastErr
  | fuel + 1, rc, lastErr =>
      if stop rc = true ∨ maxRetries < rc then
        afterLoop uuid maxRetries rc lastErr
      else
        match oracle rc with
        | .success r => ([.attempt rc, .store uuid r], .stored)
        | .otherError en em tb =>
            ([.attempt rc, .logWrite (errorLine uuid en em tb)], .abandoned)
        | .throttled e =>
            let rest := callLoop uuid oracle stop jitter maxRetries fuel
              (rc + 1) (some e)
            (.attempt rc :: .backoffSleep (2 ^ (rc + 1) + jitter (rc + 1))
              :: rest.1, rest.2)

/-- `_call_with_backoff`: the loop entered with `retry_count = 0` and
`e_rate_limit` unset. -/
def callWithBackoff (uuid : String) (oracle : Nat → AttemptOutcome)
    (stop : Nat → Bool) (jitter : Nat → ℚ) (maxRetries : Nat) :
    List CallEvent × CallOutcome :=
  callLoop uuid oracle stop jitter maxRetries (maxRetries + 2) 0 none

/-- The attempt index carried by an attempt event. -/
def attemptIdx : CallEvent → Option Nat
  | .attempt n => some n
  | _ => none

/-- The pair of events one throttled iteration with `retry_count = n`
contributes: its attempt, then the backoff sleep of
`2 ^ (n + 1) + jitter (n + 1)` seconds. -/
def backoffBlock (jitter : Nat → ℚ) (n : Nat) : List CallEvent :=
  [.attempt n, .backoffSleep (2 ^ (n + 1) + jitter (n + 1))]

/-- `threading.Event.wait(d)` semantics: the elapsed time of a wait of
duration `d` when the flag becomes set `s` seconds after the wait starts
(`none`: never during the wait; `s ≤ 0`: already set, immediate return). -/
def waitElapsed (d : ℚ) (stopAt : Option ℚ) : ℚ :=
  match stopAt with
  | none => d
  | some s => min d (max s 0)

/-! ## run_parallel_prompt_tasks (openai_client.py lines 306-360) -/

/-- The task submission (lines 339-351):
`enumerate(zip(uuids, messages))`, one worker per pair. -/
def submittedTasks {α : Type} (uuids : List String) (messages : List α) :
    List (Nat × String × α) :=
  (uuids.zip messages).enum

/-- The progress-bar total (lines 336-337): `total_tasks = len(messages)`. -/
def progressTotal {α : Type} (messages : List α) : Nat :=
  messages.length

/-- The completion loop (lines 352-360): every future is popped, its
exception — if any — swallowed by `try: future.result() except: pass`, and
the progress bar updated once, regardless of outcome. -/
def dispatcherProgress (results : List (Except String Unit)) : Nat :=
  results.foldl
    (fun pbar r =>
      match r with
      | .ok _ => pbar + 1
      | .error _ => pbar + 1) 0

/-! ## The semaphore of LanguageModel (model.py line 89, used at
openai_client.py line 223)

`threading.Semaphore(MAX_CONCURRENT_REQUESTS)` wrapped around the whole
attempt body.  A schedule is a sequence of acquire/release events by worker
id; the semaphore refuses (blocks) an acquire when `cap` holders are already
inside, modelled by `none`. -/

/-- An acquire or release by worker `w`. -/
inductive SemOp where
  | acquire (w : Nat)
  | release (w : Nat)
deriving DecidableEq

/-- One semaphore transition: the holder multiset, or `none` for a schedule
the semaphore does not admit. -/
def semStep (cap : Nat) (st : Option (List Nat)) (op : SemOp) :
    Option (List Nat) :=
  match st, op with
  | none, _ => none
  | some hs, .acquire w =>
      if hs.length < cap ∧ w ∉ hs then some (w :: hs) else none
  | some hs, .release w => if w ∈ hs then some (hs.erase w) else none

/-- Run a schedule from the empty semaphore. -/
def semRun (cap : Nat) (ops : List SemOp) : Option (List Nat) :=
  ops.foldl (semStep cap) (some [])

/-! ## Blueprint composition (narrative_blueprint/blueprint.py) -/

/-- `_compose_blueprint_messages` (lines 177-204): drop the narratives whose
uuid is among the collected uuids, then build, in order, one
system+user message per remaining narrative.  `mkUserPrompt` stands for the
template substitution of `_load_message_prompt`. -/
def composeBlueprintMessages (systemPrompt : String)
    (mkUserPrompt : String → String) (narratives : List (String × String))
    (collected : List String) :
    List String × List (List (String × String)) :=
  let kept := narratives.filter (fun n => decide (n.1 ∉ collected))
  (kept.map (fun n => n.1),
   kept.map (fun n =>
     [("system", systemPrompt), ("user", mkUserPrompt n.2)]))

/-- `run_blueprint_analysis` (lines 230-246): the lists actually passed to
`run_parallel_prompt_tasks` — the composed lists, truncated to the first
`sample_size` entries when `if self.sample_size:` is truthy (`0` models
both `None` and `0`, Python's falsy values here). -/
def runBlueprintPassedLists (systemPrompt : String)
    (mkUserPrompt : String → String) (narratives : List (String × String))
    (collected : List String) (sampleSize : Nat) :
    List String × List (List (String × String)) :=
  let c := composeBlueprintMessages systemPrompt mkUserPrompt narratives
    collected
  if sampleSize ≠ 0 then (c.1.take sampleSize, c.2.take sampleSize) else c

/-! ## Basic window lemmas -/

lemma mem_pruneRequests {now t : ℚ} {ts : List ℚ} :
    t ∈ pruneRequests now ts ↔ t ∈ ts ∧ now - t < 60 := by
  simp [pruneRequests, List.mem_filter]

lemma mem_pruneUsage {now : ℚ} {e : ℚ × ℕ × ℕ} {log : List (ℚ × ℕ × ℕ)} :
    e ∈ pruneUsage now log ↔ e ∈ log ∧ now - e.1 < 60 := by
  simp [pruneUsage, List.mem_filter]

lemma foldl_min_of_le (ts : List ℚ) :
    ∀ t : ℚ, (∀ x ∈ ts, t ≤ x) → ts.foldl min t = t := by
  induction ts with
  | nil => intro t _; rfl
  | cons a ts ih =>
      intro t h
      have hta : t ≤ a := h a (List.mem_cons_self a ts)
      have : min t a = t := min_eq_left hta
      simp only [List.foldl_cons, this]
      exact ih t (fun x hx => h x (List.mem_cons_of_mem a hx))

lemma specOldestTimestamp_eq_head {t : ℚ} {ts : List ℚ}
    (h : (t :: ts).Pairwise (· ≤ ·)) :
    specOldestTimestamp (t :: ts) = t := by
  have h' : ∀ x ∈ ts, t ≤ x := (List.pairwise_cons.mp h).1
  simpa [specOldestTimestamp] using foldl_min_of_le ts t h'

/-- **C1.** The wait computed by one decision step of `_enforce_rate_limits`
coincides with the spec's description: after pruning, the required request
wait is `60 - (now - oldestRequestTimestamp)` when the windowed request
count reaches the RPM limit (1 second on an empty window) and 0 otherwise;
the aggregate token figure is the windowed prompt+completion sum plus the
estimate plus the average-completion buffer (default 1000 before any data);
the required token wait is `60 - (now - oldestTokenEventTimestamp)` when
that aggregate exceeds the TPM limit (1 second on an empty window) and 0
otherwise; and the enforced wait is the maximum of the two required waits.
The windows are assumed ordered by timestamp (the spec's "ordering by
timestamp is insertion order"). -/
theorem C1_estimate_wait_refines_spec
    (rpm tpm estimatedTokens : Nat) (now : ℚ)
    (reqTs : List ℚ) (usage : List (ℚ × ℕ × ℕ))
    (hreq : reqTs.Pairwise (· ≤ ·))
    (husage : usage.Pairwise (fun a b => a.1 ≤ b.1)) :
    rateLimitWaitTime rpm tpm estimatedTokens now reqTs usage
      = specEstimateWait rpm tpm estimatedTokens now reqTs usage := by
  have hRp : (pruneRequests now reqTs).Pairwise (· ≤ ·) := hreq.filter _
  have hKp : (pruneUsage now usage).Pairwise (fun a b => a.1 ≤ b.1) :=
    husage.filter _
  -- the request-window wait matches the spec's oldest-based formula
  have hreqw : (match pruneRequests now reqTs with
        | [] => (1:ℚ)
        | t :: _ => 60 - (now - t))
      = (if (pruneRequests now reqTs).isEmpty then (1:ℚ)
         else 60 - (now - specOldestTimestamp (pruneRequests now reqTs))) := by
    cases hR : pruneRequests now reqTs with
    | nil => simp
    | cons t ts =>
        rw [specOldestTimestamp_eq_head (hR ▸ hRp)]
        simp
  -- the token-window wait matches the spec's oldest-based formula
  have htokw : (match pruneUsage now usage with
        | [] => (1:ℚ)
        | e :: _ => 60 - (now - e.1))
      = (if (pruneUsage now usage).isEmpty then (1:ℚ)
         else 60 - (now -
           specOldestTimestamp ((pruneUsage now usage).map (fun e => e.1)))) := by
    cases hK : pruneUsage now usage with
    | nil => simp
    | cons e es =>
        have hmap : ((e :: es).map (fun x => x.1)).Pairwise (· ≤ ·) :=
          List.pairwise_map.mpr (hK ▸ hKp)
        rw [show ((e :: es).map (fun x => x.1)) = e.1 :: es.map (fun x => x.1)
              from rfl] at hmap
        rw [show ((e :: es).map (fun x => x.1)) = e.1 :: es.map (fun x => x.1)
              from rfl, specOldestTimestamp_eq_head hmap]
        simp
  -- the buffers coincide
  have hbuf : averageCompletionTokens (pruneUsage now usage)
      = specAverageBuffer (pruneUsage now usage) := by
    cases pruneUsage now usage <;>
      simp [averageCompletionTokens, specAverageBuffer]
  -- both windowed waits are strictly positive
  have hrpos : 0 < (if (pruneRequests now reqTs).isEmpty then (1:ℚ)
         else 60 - (now - specOldestTimestamp (pruneRequests now reqTs))) := by
    cases hR : pruneRequests now reqTs with
    | nil => simp
    | cons t ts =>
        have ht : t ∈ pruneRequests now reqTs := hR ▸ List.mem_cons_self t ts
        have hlt := (mem_pruneRequests.mp ht).2
        rw [specOldestTimestamp_eq_head (hR ▸ hRp)]
        have : (0:ℚ) < 60 - (now - t) := by linarith
        simpa using this
  have hkpos : 0 < (if (pruneUsage now usage).isEmpty then (1:ℚ)
         else 60 - (now -
           specOldestTimestamp ((pruneUsage now usage).map (fun e => e.1)))) := by
    cases hK : pruneUsage now usage with
    | nil => simp
    | cons e es =>
        have he : e ∈ pruneUsage now usage := hK ▸ List.mem_cons_self e es
        have hlt := (mem_pruneUsage.mp he).2
        have hmap : ((e :: es).map (fun x => x.1)).Pairwise (· ≤ ·) :=
          List.pairwise_map.mpr (hK ▸ hKp)
        rw [show ((e :: es).map (fun x => x.1)) = e.1 :: es.map (fun x => x.1)
              from rfl] at hmap
        rw [show ((e :: es).map (fun x => x.1)) = e.1 :: es.map (fun x => x.1)
              from rfl, specOldestTimestamp_eq_head hmap]
        have : (0:ℚ) < 60 - (now - e.1) := by linarith
        simpa using this
  -- assemble
  unfold rateLimitWaitTime specEstimateWait specRequestWait specTokenWait
  simp only [hreqw, htokw, hbuf]
  set r : ℚ := (if (pruneRequests now reqTs).isEmpty then (1:ℚ)
       else 60 - (now - specOldestTimestamp (pruneRequests now reqTs))) with hrdef
  set k : ℚ := (if (pruneUsage now usage).isEmpty then (1:ℚ)
       else 60 - (now -
         specOldestTimestamp ((pruneUsage now usage).map (fun e => e.1)))) with hkdef
  by_cases hc1 : rpm ≤ (pruneRequests now reqTs).length <;>
    by_cases hc2 : (tpm : ℚ) <
      ((pruneUsage now usage).map (fun e => (e.2.1 : ℚ) + e.2.2)).sum
        + estimatedTokens + specAverageBuffer (pruneUsage now usage)
  · rw [if_pos hc1, if_pos hc2, if_pos hc1, if_pos hc2,
      max_eq_right hrpos.le]
  · rw [if_pos hc1, if_neg hc2, if_pos hc1, if_neg hc2,
      max_eq_right hrpos.le, max_eq_left hrpos.le]
  · rw [if_neg hc1, if_pos hc2, if_neg hc1, if_pos hc2]
  · rw [if_neg hc1, if_neg hc2, if_neg hc1, if_neg hc2, max_self]

/-- Witness for C1 at a concrete sorted pair of windows. -/
theorem C1_estimate_wait_refines_spec_witness :
    rateLimitWaitTime 1 100 5 100 [50] [(60, 10, 20)]
      = specEstimateWait 1 100 5 100 [50] [(60, 10, 20)] :=
  C1_estimate_wait_refines_spec 1 100 5 100 [50] [(60, 10, 20)]
    (by simp) (by simp)

/-- **C5.** Immediately after the pruning step of `_enforce_rate_limits` at
decision time `now`: no retained event of either window is older than
`now - 60`, and every event younger than 60 seconds is retained. -/
theorem C5_window_pruning (now : ℚ) (reqTs : List ℚ)
    (usage : List (ℚ × ℕ × ℕ)) :
    (∀ t ∈ pruneRequests now reqTs, ¬ t < now - 60) ∧
    (∀ t ∈ reqTs, now - t < 60 → t ∈ pruneRequests now reqTs) ∧
    (∀ e ∈ pruneUsage now usage, ¬ e.1 < now - 60) ∧
    (∀ e ∈ usage, now - e.1 < 60 → e ∈ pruneUsage now usage) := by
  refine ⟨?_, ?_, ?_, ?_⟩
  · intro t ht
    have := (mem_pruneRequests.mp ht).2
    linarith
  · intro t ht hyoung
    exact mem_pruneRequests.mpr ⟨ht, hyoung⟩
  · intro e he
    have := (mem_pruneUsage.mp he).2
    linarith
  · intro e he hyoung
    exact mem_pruneUsage.mpr ⟨he, hyoung⟩

/-- Witness for C5: a 10-second-old request timestamp is retained and is not
older than the window start. -/
theorem C5_window_pruning_witness :
    (90:ℚ) ∈ pruneRequests 100 [30, 90] ∧ ¬ (90:ℚ) < 100 - 60 := by
  have h := C5_window_pruning 100 [30, 90] []
  have hmem : (90:ℚ) ∈ pruneRequests 100 [30, 90] :=
    h.2.1 90 (by simp) (by norm_num)
  exact ⟨hmem, h.1 90 hmem⟩

/-! ## Lemmas on the _call_with_backoff loop -/

lemma callLoop_exceeded (uuid : String) (oracle : Nat → AttemptOutcome)
    (stop : Nat → Bool) (jitter : Nat → ℚ) (maxRetries : Nat) :
    ∀ fuel rc lastErr, maxRetries < rc →
      callLoop uuid oracle stop jitter maxRetries fuel rc lastErr
        = ([], .raisedNameError) := by
  intro fuel rc lastErr h
  cases fuel with
  | zero => simp [callLoop, afterLoop, h]
  | succ f => simp [callLoop, afterLoop, h]

lemma callLoop_all_throttled (uuid : String) (oracle : Nat → AttemptOutcome)
    (stop : Nat → Bool) (jitter : Nat → ℚ) (maxRetries : Nat)
    (err : Nat → String)
    (horacle : ∀ n, oracle n = .throttled (err n))
    (hstop : ∀ n, stop n = false) :
    ∀ fuel rc lastErr, maxRetries + 2 ≤ fuel + rc → rc ≤ maxRetries →
      callLoop uuid oracle stop jitter maxRetries fuel rc lastErr
        = (((List.range' rc (maxRetries + 1 - rc)).map
              (backoffBlock jitter)).flatten,
           .raisedNameError) := by
  intro fuel
  induction fuel with
  | zero => intro rc lastErr hfuel hrc; omega
  | succ f ih =>
      intro rc lastErr hfuel hrc
      have hguard : ¬ (stop rc = true ∨ maxRetries < rc) := by
        simp [hstop rc]; omega
      rcases Nat.lt_or_ge rc maxRetries with hlt | hge
      · -- strictly below the cap: one throttled iteration, then recurse
        have hrange : maxRetries + 1 - rc = (maxRetries - rc) + 1 := by omega
        have hrange' : maxRetries + 1 - (rc + 1) = maxRetries - rc := by omega
        have hrest := ih (rc + 1) (some (err rc)) (by omega) (by omega)
        simp only [callLoop, if_neg hguard, horacle rc, hrest]
        rw [hrange, List.range'_succ]
        simp [backoffBlock, hrange']
      · -- at the cap: the last attempt, then the exceeded-retries exit
        have hrceq : rc = maxRetries := by omega
        subst hrceq
        have hrest := callLoop_exceeded uuid oracle stop jitter rc f (rc + 1)
          (some (err rc)) (by omega)
        simp only [callLoop, if_neg hguard, horacle rc, hrest]
        have hone : rc + 1 - rc = 1 := by omega
        rw [hone, List.range'_one]
        simp [backoffBlock]

lemma filterMap_backoffBlocks (jitter : Nat → ℚ) :
    ∀ k s, (((List.range' s k).map (backoffBlock jitter)).flatten).filterMap
        attemptIdx = List.range' s k := by
  intro k
  induction k with
  | zero => intro s; simp
  | succ k ih =>
      intro s
      rw [List.range'_succ]
      simp [backoffBlock, attemptIdx, ih (s + 1)]

lemma store_not_mem_backoffBlocks (jitter : Nat → ℚ) (u r : String) :
    ∀ k s, CallEvent.store u r ∉
      ((List.range' s k).map (backoffBlock jitter)).flatten := by
  intro k
  induction k with
  | zero => intro s; simp
  | succ k ih =>
      intro s
      rw [List.range'_succ]
      simp [backoffBlock, ih (s + 1)]

/-- Supporting lemma: for a task whose remote call always raises
`RateLimitError` and with the stop flag never set, the `_call_with_backoff`
trace is exactly the `max_retries + 1` attempt/backoff blocks at increasing
retry counts, with no store and no log write, and the run then ends with the
NameError that escapes from the exceeded-retries path (openai_client.py
line 303 — `e_rate_limit` is unbound there). -/
lemma callWithBackoff_always_throttled (uuid : String)
    (oracle : Nat → AttemptOutcome) (stop : Nat → Bool) (jitter : Nat → ℚ)
    (maxRetries : Nat) (err : Nat → String)
    (horacle : ∀ n, oracle n = .throttled (err n))
    (hstop : ∀ n, stop n = false) :
    callWithBackoff uuid oracle stop jitter maxRetries
      = (((List.range (maxRetries + 1)).map (backoffBlock jitter)).flatten,
         .raisedNameError)
    ∧ (callWithBackoff uuid oracle stop jitter maxRetries).1.filterMap
        attemptIdx = List.range (maxRetries + 1)
    ∧ ((callWithBackoff uuid oracle stop jitter maxRetries).1.filterMap
        attemptIdx).length = maxRetries + 1
    ∧ ∀ u r, CallEvent.store u r
        ∉ (callWithBackoff uuid oracle stop jitter maxRetries).1 := by
  have hmain : callWithBackoff uuid oracle stop jitter maxRetries
      = (((List.range (maxRetries + 1)).map (backoffBlock jitter)).flatten,
         .raisedNameError) := by
    unfold callWithBackoff
    rw [callLoop_all_throttled uuid oracle stop jitter maxRetries err horacle
      hstop (maxRetries + 2) 0 none (by omega) (by omega)]
    rw [List.range_eq_range']
    norm_num
  have hfm : (callWithBackoff uuid oracle stop jitter maxRetries).1.filterMap
      attemptIdx = List.range (maxRetries + 1) := by
    rw [hmain, List.range_eq_range']
    exact filterMap_backoffBlocks jitter (maxRetries + 1) 0
  refine ⟨hmain, hfm, ?_, ?_⟩
  · rw [hfm, List.length_range]
  · intro u r
    rw [hmain]
    exact fun hmem => store_not_mem_backoffBlocks jitter u r (maxRetries + 1)
      0 (by simpa [List.range_eq_range'] using hmem)

/-- **C2.** At the failing input — `max_retries = 2`, every remote call
raising `RateLimitError`, stop flag never set, jitter draws 0 — the code
does perform exactly `max_retries + 1 = 3` attempts at the strictly
increasing retry counts 0, 1, 2, with backoff sleeps of `2^1, 2^2, 2^3`
seconds after the 1st, 2nd and 3rd failed attempts, and stores no result;
but the run does not end in the claimed clean retries-exhausted terminal
state: the trace contains no log write and the call ends with the NameError
raised at openai_client.py line 303, where `e_rate_limit` has been unbound
since the end of its except clause. -/
theorem C2_retry_bound_nameerror_escape :
    callWithBackoff "task-7" (fun _ => .throttled "RateLimitError")
        (fun _ => false) (fun _ => 0) 2
      = ([.attempt 0, .backoffSleep 2, .attempt 1, .backoffSleep 4,
          .attempt 2, .backoffSleep 8], .raisedNameError)
    ∧ (callWithBackoff "task-7" (fun _ => .throttled "RateLimitError")
        (fun _ => false) (fun _ => 0) 2).1.filterMap attemptIdx
      = [0, 1, 2] := by
  have h := callWithBackoff_always_throttled "task-7"
    (fun _ => .throttled "RateLimitError") (fun _ => false) (fun _ => 0) 2
    (fun _ => "RateLimitError") (fun _ => rfl) (fun _ => rfl)
  have hr : List.range (2 + 1) = [0, 1, 2] := rfl
  constructor
  · rw [h.1, hr]
    norm_num [backoffBlock]
  · rw [h.2.1, hr]

lemma afterLoop_trace_nil (uuid : String) (maxRetries rc : Nat)
    (lastErr : Option String) :
    (afterLoop uuid maxRetries rc lastErr).1 = [] := by
  unfold afterLoop
  split <;> rfl

lemma callLoop_no_log_when_raised (uuid : String)
    (oracle : Nat → AttemptOutcome) (stop : Nat → Bool) (jitter : Nat → ℚ)
    (maxRetries : Nat) :
    ∀ fuel rc lastErr,
      (callLoop uuid oracle stop jitter maxRetries fuel rc lastErr).2
          = .raisedNameError →
      ∀ line, CallEvent.logWrite line
          ∉ (callLoop uuid oracle stop jitter maxRetries fuel rc lastErr).1 := by
  intro fuel
  induction fuel with
  | zero =>
      intro rc lastErr hout line hmem
      simp only [callLoop] at hmem
      rw [afterLoop_trace_nil] at hmem
      exact absurd hmem (List.not_mem_nil _)
  | succ f ih =>
      intro rc lastErr hout line hmem
      by_cases hg : stop rc = true ∨ maxRetries < rc
      · simp only [callLoop, if_pos hg] at hmem
        rw [afterLoop_trace_nil] at hmem
        exact absurd hmem (List.not_mem_nil _)
      · cases horc : oracle rc with
        | success r => simp [callLoop, if_neg hg, horc] at hout
        | otherError en em tb => simp [callLoop, if_neg hg, horc] at hout
        | throttled e' =>
            have hout' : (callLoop uuid oracle stop jitter maxRetries f
                (rc + 1) (some e')).2 = .raisedNameError := by
              simpa only [callLoop, if_neg hg, horc] using hout
            simp only [callLoop, if_neg hg, horc, List.mem_cons] at hmem
            rcases hmem with hmem | hmem | hmem
            · exact CallEvent.noConfusion hmem
            · exact CallEvent.noConfusion hmem
            · exact ih (rc + 1) (some e') hout' line hmem

/-- **C4.** The claim's exceeded-retries log write never occurs in the
source: at the failing input (`max_retries = 0`, every call raising
`RateLimitError`, stop flag never set) the run leaves the loop on the
exceeded-retries path with a trace containing no log write at all —
openai_client.py line 303 raises NameError while evaluating its f-string
(`e_rate_limit` was unbound when its except clause exited), before
`_log_write` can be called — and the call ends with that escaped exception
instead of the claimed logged stop. -/
theorem C4_exceeded_retries_log_never_written :
    callWithBackoff "u1" (fun _ => .throttled "limit") (fun _ => false)
        (fun _ => 0) 0
      = ([.attempt 0, .backoffSleep 2], .raisedNameError) := by
  have h := (callWithBackoff_always_throttled "u1"
    (fun _ => .throttled "limit") (fun _ => false) (fun _ => 0) 0
    (fun _ => "limit") (fun _ => rfl) (fun _ => rfl)).1
  have hr : List.range (0 + 1) = [0] := rfl
  rw [h, hr]
  norm_num [backoffBlock]

/-! ## Cancellation and sleep lemmas -/

lemma callLoop_attempt_stop_false (uuid : String)
    (oracle : Nat → AttemptOutcome) (stop : Nat → Bool) (jitter : Nat → ℚ)
    (maxRetries : Nat) :
    ∀ fuel rc lastErr n,
      CallEvent.attempt n
          ∈ (callLoop uuid oracle stop jitter maxRetries fuel rc lastErr).1 →
      stop n = false ∧ rc ≤ n := by
  intro fuel
  induction fuel with
  | zero =>
      intro rc lastErr n hmem
      simp only [callLoop] at hmem
      rw [afterLoop_trace_nil] at hmem
      exact absurd hmem (List.not_mem_nil _)
  | succ f ih =>
      intro rc lastErr n hmem
      by_cases hg : stop rc = true ∨ maxRetries < rc
      · simp only [callLoop, if_pos hg] at hmem
        rw [afterLoop_trace_nil] at hmem
        exact absurd hmem (List.not_mem_nil _)
      · have hs : stop rc = false := by
          cases hsrc : stop rc with
          | false => rfl
          | true => exact absurd (Or.inl hsrc) hg
        cases horc : oracle rc with
        | success r =>
            simp [callLoop, if_neg hg, horc] at hmem
            subst hmem
            exact ⟨hs, le_refl _⟩
        | otherError en em tb =>
            simp [callLoop, if_neg hg, horc] at hmem
            subst hmem
            exact ⟨hs, le_refl _⟩
        | throttled e' =>
            simp only [callLoop, if_neg hg, horc, List.mem_cons] at hmem
            rcases hmem with hmem | hmem | hmem
            · cases hmem
              exact ⟨hs, le_refl _⟩
            · exact absurd hmem (by simp)
            · obtain ⟨h1, h2⟩ := ih (rc + 1) (some e') n hmem
              exact ⟨h1, by omega⟩

lemma stop_true_of_ge (stop : Nat → Bool)
    (hmono : ∀ n, stop n = true → stop (n + 1) = true) {k n : Nat}
    (hk : stop k = true) (h : k ≤ n) : stop n = true := by
  induction n, h using Nat.le_induction with
  | base => exact hk
  | succ n hn ih => exact hmono n ih

lemma callLoop_backoff_duration (uuid : String)
    (oracle : Nat → AttemptOutcome) (stop : Nat → Bool) (jitter : Nat → ℚ)
    (maxRetries : Nat) :
    ∀ fuel rc lastErr d,
      CallEvent.backoffSleep d
          ∈ (callLoop uuid oracle stop jitter maxRetries fuel rc lastErr).1 →
      ∃ n, d = 2 ^ (n + 1) + jitter (n + 1) := by
  intro fuel
  induction fuel with
  | zero =>
      intro rc lastErr d hmem
      simp only [callLoop] at hmem
      rw [afterLoop_trace_nil] at hmem
      exact absurd hmem (List.not_mem_nil _)
  | succ f ih =>
      intro rc lastErr d hmem
      by_cases hg : stop rc = true ∨ maxRetries < rc
      · simp only [callLoop, if_pos hg] at hmem
        rw [afterLoop_trace_nil] at hmem
        exact absurd hmem (List.not_mem_nil _)
      · cases horc : oracle rc with
        | success r => simp [callLoop, if_neg hg, horc] at hmem
        | otherError en em tb => simp [callLoop, if_neg hg, horc] at hmem
        | throttled e' =>
            simp only [callLoop, if_neg hg, horc, List.mem_cons] at hmem
            rcases hmem with hmem | hmem | hmem
            · exact absurd hmem (by simp)
            · cases hmem
              exact ⟨rc, rfl⟩
            · exact ih (rc + 1) (some e') d hmem

lemma rateLimitWaitTime_nonneg (rpm tpm estimatedTokens : Nat) (now : ℚ)
    (reqTs : List ℚ) (usage : List (ℚ × ℕ × ℕ)) :
    0 ≤ rateLimitWaitTime rpm tpm estimatedTokens now reqTs usage := by
  unfold rateLimitWaitTime
  dsimp only
  have h1 : (0:ℚ) ≤ (if rpm ≤ (pruneRequests now reqTs).length then
      max 0 (match pruneRequests now reqTs with
             | [] => (1:ℚ)
             | t :: _ => 60 - (now - t))
    else 0) := by
    split
    · exact le_max_left _ _
    · exact le_refl 0
  split
  · exact le_trans h1 (le_max_left _ _)
  · exact h1

lemma enforceLoop_sleep_pos (rpm tpm estimatedTokens : Nat)
    (nows recTimes u1 u2 : Nat → ℚ)
    (hu1 : ∀ j, 0 ≤ u1 j) (hu2 : ∀ j, 1/20 ≤ u2 j) :
    ∀ fuel i st d L,
      RLEvent.sleep d L ∈ (enforceLoop rpm tpm estimatedTokens nows recTimes
        u1 u2 fuel i st).1 →
      0 < d := by
  intro fuel
  induction fuel with
  | zero => intro i st d L h; simp [enforceLoop] at h
  | succ f ih =>
      intro i st d L h
      by_cases hw : rateLimitWaitTime rpm tpm estimatedTokens (nows i)
          st.requestTimestamps st.tokenUsageLog = 0
      · simp [enforceLoop, hw] at h
        obtain ⟨hd, -⟩ := h
        have h0 := hu1 i
        have hdj : DEFAULT_JITTER = 3/20 := rfl
        rw [hd, hdj]
        linarith
      · simp [enforceLoop, if_neg hw] at h
        rcases h with ⟨hd, -⟩ | h
        · have h0 := hu2 i
          have hw0 := rateLimitWaitTime_nonneg rpm tpm estimatedTokens
            (nows i) st.requestTimestamps st.tokenUsageLog
          rw [hd]
          linarith
        · exact ih (i + 1) _ d L h

/-- `threading.Event.wait` returns early: a wait of duration `d` whose flag
becomes set at time `s < d` elapses strictly less than `d`. -/
lemma waitElapsed_lt {d s : ℚ} (hd : 0 < d) (hs : s < d) :
    waitElapsed d (some s) < d := by
  unfold waitElapsed
  exact lt_of_le_of_lt (min_le_right _ _) (max_lt hs hd)

/-- **C6.** With the stop flag monotone (set-once) and set by iteration `k`:
no attempt with retry count `≥ k` ever starts (the guard at the top of the
`_call_with_backoff` loop prevents entry); every backoff sleep and every
sleep of the `_enforce_rate_limits` loop has strictly positive requested
duration and, being an interruptible `stop_flag.wait`, returns in strictly
less than its duration whenever the flag is (or becomes) set before the
duration elapses. -/
theorem C6_cancellation_responsive (uuid : String)
    (oracle : Nat → AttemptOutcome) (stop : Nat → Bool) (jitter : Nat → ℚ)
    (maxRetries k : Nat) (rpm tpm estimatedTokens : Nat)
    (nows recTimes u1 u2 : Nat → ℚ) (fuel : Nat) (st : RLState)
    (hmono : ∀ n, stop n = true → stop (n + 1) = true)
    (hk : stop k = true)
    (hjit : ∀ n, 0 ≤ jitter n)
    (hu1 : ∀ j, 0 ≤ u1 j) (hu2 : ∀ j, 1/20 ≤ u2 j) :
    (∀ n, k ≤ n → CallEvent.attempt n
        ∉ (callWithBackoff uuid oracle stop jitter maxRetries).1)
    ∧ (∀ d s, CallEvent.backoffSleep d
          ∈ (callWithBackoff uuid oracle stop jitter maxRetries).1 →
        s < d → waitElapsed d (some s) < d)
    ∧ (∀ d L s, RLEvent.sleep d L
          ∈ (enforceRateLimits rpm tpm estimatedTokens nows recTimes
              u1 u2 fuel st).1 →
        s < d → waitElapsed d (some s) < d) := by
  refine ⟨?_, ?_, ?_⟩
  · intro n hn hmem
    unfold callWithBackoff at hmem
    obtain ⟨hfalse, -⟩ := callLoop_attempt_stop_false uuid oracle stop jitter
      maxRetries (maxRetries + 2) 0 none n hmem
    rw [stop_true_of_ge stop hmono hk hn] at hfalse
    exact Bool.noConfusion hfalse
  · intro d s hmem hs
    unfold callWithBackoff at hmem
    obtain ⟨n, rfl⟩ := callLoop_backoff_duration uuid oracle stop jitter
      maxRetries (maxRetries + 2) 0 none d hmem
    have hpow : (0:ℚ) < 2 ^ (n + 1) := by positivity
    have := hjit (n + 1)
    exact waitElapsed_lt (by linarith) hs
  · intro d L s hmem hs
    unfold enforceRateLimits at hmem
    exact waitElapsed_lt (enforceLoop_sleep_pos rpm tpm estimatedTokens nows
      recTimes u1 u2 hu1 hu2 fuel 0 st d L hmem) hs

/-- Witness for C6: with the flag set from the start, the very first attempt
never begins. -/
theorem C6_cancellation_responsive_witness :
    CallEvent.attempt 0 ∉ (callWithBackoff "w3"
      (fun _ => .throttled "e") (fun _ => true) (fun _ => 0) 1).1 := by
  have h := C6_cancellation_responsive "w3" (fun _ => .throttled "e")
    (fun _ => true) (fun _ => 0) 1 0 1 1 1 (fun _ => 0) (fun _ => 0)
    (fun _ => 0) (fun _ => 1/20) 1 ⟨[], []⟩
    (fun _ h => h) rfl (fun _ => le_refl 0) (fun _ => le_refl 0)
    (fun _ => le_refl (1/20))
  exact h.1 0 (Nat.le_refl 0)

/-- **C7 counterexample.** At a concrete admission (empty windows, limits not
at risk), the `_enforce_rate_limits` trace contains the proceed-jitter sleep
of strictly positive duration with the rate-limit and token locks still
held: a lock IS held across a sleep, refuting the claim. -/
theorem C7_lock_held_during_jitter_sleep :
    RLEvent.sleep (DEFAULT_JITTER + 0) true
        ∈ (enforceRateLimits 3 10000 5 (fun _ => 0) (fun _ => 0) (fun _ => 0)
            (fun _ => 0) 1 ⟨[], []⟩).1
    ∧ (0:ℚ) < DEFAULT_JITTER + 0 := by
  have hw : rateLimitWaitTime 3 10000 5 0 ([] : List ℚ)
      ([] : List (ℚ × ℕ × ℕ)) = 0 := by
    norm_num [rateLimitWaitTime, pruneRequests, pruneUsage,
      averageCompletionTokens, AVERAGE_TOKEN_USAGE]
  constructor
  · show RLEvent.sleep (DEFAULT_JITTER + 0) true
        ∈ (enforceLoop 3 10000 5 (fun _ => 0) (fun _ => 0) (fun _ => 0)
            (fun _ => 0) (0 + 1) 0 ⟨[], []⟩).1
    simp [enforceLoop, hw]
  · norm_num [DEFAULT_JITTER]

/-- **C7 (amended).** The locks are never held across the enforced RPM/TPM
wait — every sleep event carrying `underLock = true` is the proceed-jitter
sleep `DEFAULT_JITTER + uniform(0, 0.05)`, bounded by 0.2 seconds; the
enforced waits are always performed after the critical section is released
(they appear with `underLock = false`). -/
theorem C7_only_jitter_sleep_under_lock (rpm tpm estimatedTokens : Nat)
    (nows recTimes u1 u2 : Nat → ℚ) (hu1b : ∀ j, u1 j ≤ 1/20) :
    ∀ fuel i st d,
      RLEvent.sleep d true ∈ (enforceLoop rpm tpm estimatedTokens nows
        recTimes u1 u2 fuel i st).1 →
      (∃ j, d = DEFAULT_JITTER + u1 j) ∧ d ≤ 1/5 := by
  intro fuel
  induction fuel with
  | zero => intro i st d h; simp [enforceLoop] at h
  | succ f ih =>
      intro i st d h
      by_cases hw : rateLimitWaitTime rpm tpm estimatedTokens (nows i)
          st.requestTimestamps st.tokenUsageLog = 0
      · simp [enforceLoop, hw] at h
        refine ⟨⟨i, h⟩, ?_⟩
        have := hu1b i
        have hdj : DEFAULT_JITTER = 3/20 := rfl
        rw [h, hdj]
        linarith
      · simp [enforceLoop, if_neg hw] at h
        exact ih (i + 1) _ d h

/-- Witness for C7's amended theorem at the concrete admission trace. -/
theorem C7_only_jitter_sleep_under_lock_witness :
    (∃ j, DEFAULT_JITTER + (0:ℚ)
      = DEFAULT_JITTER + (fun _ : Nat => (0:ℚ)) j)
    ∧ DEFAULT_JITTER + (0:ℚ) ≤ 1/5 := by
  have hw : rateLimitWaitTime 3 10000 5 0 ([] : List ℚ)
      ([] : List (ℚ × ℕ × ℕ)) = 0 := by
    norm_num [rateLimitWaitTime, pruneRequests, pruneUsage,
      averageCompletionTokens, AVERAGE_TOKEN_USAGE]
  refine C7_only_jitter_sleep_under_lock 3 10000 5 (fun _ => 0) (fun _ => 0)
    (fun _ => 0) (fun _ => 0) (fun _ => by norm_num) (0 + 1) 0 ⟨[], []⟩
    (DEFAULT_JITTER + 0) ?_
  simp [enforceLoop, hw]

/-! ## Semaphore bound (C3) -/

lemma semRun_foldl_le (cap : Nat) :
    ∀ (ops : List SemOp) (acc : Option (List Nat)) (hs : List Nat),
      (∀ l, acc = some l → l.length ≤ cap) →
      ops.foldl (semStep cap) acc = some hs → hs.length ≤ cap := by
  intro ops
  induction ops with
  | nil =>
      intro acc hs hacc h
      exact hacc hs (by simpa using h)
  | cons op ops ih =>
      intro acc hs hacc h
      refine ih (semStep cap acc op) hs ?_ (by simpa using h)
      intro l hl
      cases acc with
      | none => simp [semStep] at hl
      | some hs0 =>
          have hs0le : hs0.length ≤ cap := hacc hs0 rfl
          cases op with
          | acquire w =>
              simp only [semStep] at hl
              split at hl
              · cases hl
                next hcond =>
                  simp only [List.length_cons]
                  omega
              · exact Option.noConfusion hl
          | release w =>
              simp only [semStep] at hl
              split at hl
              · cases hl
                exact le_trans ((hs0.erase_sublist w).length_le) hs0le
              · exact Option.noConfusion hl

/-- **C3 (amended).** In every schedule the semaphore admits, the number of
workers simultaneously inside the semaphore-guarded active-attempt region
(token estimation through remote call and response handling) never exceeds
`MAX_CONCURRENT_REQUESTS`, and that limit is 10 — the 30 of the claim is the
thread-pool size of `run_parallel_prompt_tasks`, not the active-attempt
bound. -/
theorem C3_semaphore_concurrency_bound (ops : List SemOp) (hs : List Nat)
    (h : semRun MAX_CONCURRENT_REQUESTS ops = some hs) :
    hs.length ≤ MAX_CONCURRENT_REQUESTS ∧ MAX_CONCURRENT_REQUESTS = 10
      ∧ THREAD_POOL_MAX_WORKERS = 30 :=
  ⟨semRun_foldl_le MAX_CONCURRENT_REQUESTS ops (some []) hs
      (fun l hl => by cases hl; simp) h,
   rfl, rfl⟩

/-- **C3 counterexample.** The active-attempt concurrency limit is not 30:
the semaphore capacity `MAX_CONCURRENT_REQUESTS` is 10, and a schedule of 11
simultaneous acquires is refused by the code's semaphore although a
30-capacity semaphore would admit it. -/
theorem C3_concurrency_limit_not_30 :
    MAX_CONCURRENT_REQUESTS ≠ 30
    ∧ semRun MAX_CONCURRENT_REQUESTS ((List.range 11).map SemOp.acquire)
        = none
    ∧ semRun THREAD_POOL_MAX_WORKERS ((List.range 11).map SemOp.acquire)
        ≠ none := by decide

/-- Witness for C3's amended theorem: two workers inside, bound respected. -/
theorem C3_semaphore_concurrency_bound_witness :
    ([1, 0] : List Nat).length ≤ MAX_CONCURRENT_REQUESTS
      ∧ MAX_CONCURRENT_REQUESTS = 10 ∧ THREAD_POOL_MAX_WORKERS = 30 :=
  C3_semaphore_concurrency_bound [SemOp.acquire 0, SemOp.acquire 1] [1, 0]
    (by decide)

/-! ## Non-throttling errors and dispatcher containment (C8) -/

lemma dispatcherProgress_eq_length (results : List (Except String Unit)) :
    dispatcherProgress results = results.length := by
  have aux : ∀ (l : List (Except String Unit)) (n : Nat),
      l.foldl
        (fun pbar r =>
          match r with
          | .ok _ => pbar + 1
          | .error _ => pbar + 1) n = n + l.length := by
    intro l
    induction l with
    | nil => intro n; simp
    | cons r l ihl =>
        intro n
        cases r <;> simp [ihl] <;> omega
  simpa [dispatcherProgress] using aux results 0

/-- **C8.** A first attempt that raises a non-throttling exception produces
exactly one diagnostics-log line — carrying the task uuid, the error class
name, the error message, and the full traceback — and the task is abandoned
with no retry and nothing stored; and the completion loop of
`run_parallel_prompt_tasks` counts every future exactly once regardless of
worker exceptions, so one task's failure never aborts the batch. -/
theorem C8_non_throttling_error_contained (uuid en em tb : String)
    (oracle : Nat → AttemptOutcome) (stop : Nat → Bool) (jitter : Nat → ℚ)
    (maxRetries : Nat)
    (horacle : oracle 0 = .otherError en em tb) (hstop : stop 0 = false) :
    callWithBackoff uuid oracle stop jitter maxRetries
      = ([.attempt 0, .logWrite (errorLine uuid en em tb)], .abandoned)
    ∧ (∃ a b, errorLine uuid en em tb = a ++ (uuid ++ b))
    ∧ (∃ a b, errorLine uuid en em tb = a ++ (en ++ b))
    ∧ (∃ a b, errorLine uuid en em tb = a ++ (em ++ b))
    ∧ (∃ c, errorLine uuid en em tb = c ++ tb)
    ∧ (∀ results, dispatcherProgress results = results.length) := by
  refine ⟨?_, ?_, ?_, ?_, ⟨_, rfl⟩, fun results =>
    dispatcherProgress_eq_length results⟩
  · show callLoop uuid oracle stop jitter maxRetries (maxRetries + 1 + 1)
        0 none = _
    simp [callLoop, hstop, horacle]
  · exact ⟨"[ERROR] prompt #",
      " error: " ++ en ++ " - " ++ em ++ "\nTraceback:\n" ++ tb,
      by simp [errorLine, String.append_assoc]⟩
  · exact ⟨"[ERROR] prompt #" ++ uuid ++ " error: ",
      " - " ++ em ++ "\nTraceback:\n" ++ tb,
      by simp [errorLine, String.append_assoc]⟩
  · exact ⟨"[ERROR] prompt #" ++ uuid ++ " error: " ++ en ++ " - ",
      "\nTraceback:\n" ++ tb,
      by simp [errorLine, String.append_assoc]⟩

/-- Witness for C8 at a concrete malformed-payload failure. -/
theorem C8_non_throttling_error_contained_witness :
    callWithBackoff "u9" (fun _ => .otherError "ValueError" "bad json" "tb0")
        (fun _ => false) (fun _ => 0) 5
      = ([.attempt 0,
          .logWrite (errorLine "u9" "ValueError" "bad json" "tb0")],
         .abandoned)
    ∧ dispatcherProgress [.error "boom", .ok (), .error "crash"] = 3 := by
  have h := C8_non_throttling_error_contained "u9" "ValueError" "bad json"
    "tb0" (fun _ => .otherError "ValueError" "bad json" "tb0")
    (fun _ => false) (fun _ => 0) 5 rfl rfl
  exact ⟨h.1, h.2.2.2.2.2 [.error "boom", .ok (), .error "crash"]⟩

/-! ## Dedup and sample-size truncation (C9) -/

/-- **C9 counterexample.** With a configured sample size, the lists passed to
`run_parallel_prompt_tasks` are NOT exactly the loaded narratives with
uncollected uuids: `sample_size = 1` drops the second of two eligible
narratives. -/
theorem C9_sample_size_truncates :
    runBlueprintPassedLists "sys" (fun n => n) [("a", "x"), ("b", "y")] [] 1
      ≠ composeBlueprintMessages "sys" (fun n => n)
          [("a", "x"), ("b", "y")] [] := by decide

/-- **C9 (amended).** A narrative whose uuid is already in the collection is
never passed to the dispatcher; the passed lists are an in-order initial
segment of the composed lists (the whole of them when no sample size is
configured, Python-falsy `0` meaning none); and the composed uuid list is
exactly the loaded narratives with uncollected uuids, in original order. -/
theorem C9_collected_uuids_never_submitted (systemPrompt : String)
    (mkUserPrompt : String → String) (narratives : List (String × String))
    (collected : List String) (sampleSize : Nat) :
    (∀ u ∈ (runBlueprintPassedLists systemPrompt mkUserPrompt narratives
        collected sampleSize).1, u ∉ collected)
    ∧ (runBlueprintPassedLists systemPrompt mkUserPrompt narratives collected
        sampleSize).1
        <+: (composeBlueprintMessages systemPrompt mkUserPrompt narratives
          collected).1
    ∧ (runBlueprintPassedLists systemPrompt mkUserPrompt narratives collected
        sampleSize).2
        <+: (composeBlueprintMessages systemPrompt mkUserPrompt narratives
          collected).2
    ∧ (sampleSize = 0 →
        runBlueprintPassedLists systemPrompt mkUserPrompt narratives
          collected sampleSize
        = composeBlueprintMessages systemPrompt mkUserPrompt narratives
          collected)
    ∧ (composeBlueprintMessages systemPrompt mkUserPrompt narratives
        collected).1
      = (narratives.filter (fun n => decide (n.1 ∉ collected))).map
          (fun n => n.1) := by
  refine ⟨?_, ?_, ?_, ?_, rfl⟩
  · intro u hu
    have hu' : u ∈ (composeBlueprintMessages systemPrompt mkUserPrompt
        narratives collected).1 := by
      unfold runBlueprintPassedLists at hu
      split at hu
      · exact List.mem_of_mem_take hu
      · exact hu
    simp only [composeBlueprintMessages, List.mem_map, List.mem_filter]
      at hu'
    obtain ⟨n, ⟨-, hdec⟩, rfl⟩ := hu'
    exact of_decide_eq_true hdec
  · unfold runBlueprintPassedLists
    split
    · exact List.take_prefix _ _
    · exact List.prefix_rfl
  · unfold runBlueprintPassedLists
    split
    · exact List.take_prefix _ _
    · exact List.prefix_rfl
  · intro h0
    unfold runBlueprintPassedLists
    simp [h0]

/-- Witness for C9's amended theorem: an uncollected uuid goes through, a
collected one does not appear. -/
theorem C9_collected_uuids_never_submitted_witness :
    ("a" : String) ∉ (["c"] : List String)
    ∧ (runBlueprintPassedLists "s" (fun n => n) [("a", "x"), ("c", "y")]
        ["c"] 0).1
      <+: (composeBlueprintMessages "s" (fun n => n) [("a", "x"), ("c", "y")]
        ["c"]).1 := by
  have h := C9_collected_uuids_never_submitted "s" (fun n => n)
    [("a", "x"), ("c", "y")] ["c"] 0
  exact ⟨h.1 "a" (by decide), h.2.1⟩

/-! ## Zip truncation in run_parallel_prompt_tasks (C10) -/

/-- **C10.** `run_parallel_prompt_tasks` submits exactly
`min(len(uuids), len(messages))` worker tasks — `zip` silently truncates at
the shorter list — while the progress-bar total is `len(messages)`. -/
theorem C10_zip_truncates_submissions {α : Type} (uuids : List String)
    (messages : List α) :
    (submittedTasks uuids messages).length
        = min uuids.length messages.length
    ∧ progressTotal messages = messages.length := by
  constructor
  · simp [submittedTasks]
  · rfl

end NarrativeBlueprint
